import Mathlib

/-!
Shallow embedding of the in-memory data-access layer (`MemStorage`) of the
rental-management application, together with proofs about the properties
claimed of it.

Modelling conventions:
* A JavaScript `Map<number, T>` is modelled as an association list
  `List (Nat × T)` in insertion order.  `Map.get` is `mget`, `Map.set` is
  `mset` (updating in place on an existing key, appending otherwise, which
  is exactly the iteration-order behaviour of a JS `Map`), `Map.delete` is
  `mdelete`, `Array.from(map.values())` is `mvalues`.
* A JS `Date` is modelled by the three observations the code makes of it:
  its epoch value (`valueOf`, used by `<`/`>` comparisons), `getFullYear`
  and `getMonth`.  `new Date(y, m, 1)` with an out-of-range month index is
  modelled by `normYM`, the calendar normalisation JS performs.
* SQL `numeric` columns (payment and rent amounts) are surfaced to JS as
  strings and converted with `Number(...)` before being summed; the model
  carries the numeric value itself as an `Int`, so `Number` is the
  identity and `reduce((s, p) => s + Number(p.amount), 0)` is a fold.
* `async` functions contain no real concurrency; each is modelled as a
  pure function from the receiver state to (result, next state).
* Non-null assertions (`!`) on map lookups are modelled by keeping the
  looked-up value as an `Option`.
-/

namespace RentalTrust

/-- Model of a JS `Date`: epoch value plus the calendar fields read by the
code (`getFullYear`, `getMonth`, with month index 0-11). -/
structure JDate where
  time : Int
  year : Int
  month : Nat
  deriving DecidableEq

/-- Calendar normalisation performed by `new Date(y, m, 1)` when the month
index `m` is out of range: the pair (normalised full year, normalised
month index in 0..11). -/
def normYM (y m : Int) : Int × Nat :=
  (y + m.ediv 12, (m.emod 12).toNat)

/-- English month name, as produced by
`toLocaleString(default, with long month)` for month index 0-11. -/
def monthName : Nat → String
  | 0 => "January"
  | 1 => "February"
  | 2 => "March"
  | 3 => "April"
  | 4 => "May"
  | 5 => "June"
  | 6 => "July"
  | 7 => "August"
  | 8 => "September"
  | 9 => "October"
  | 10 => "November"
  | _ => "December"

/-- The single-quote character used in the month label template. -/
def squote : String := String.singleton (Char.ofNat 39)

/-- Users table row. -/
structure User where
  id : Nat
  username : String
  password : String
  firstName : String
  lastName : String
  email : String
  phone : Option String
  userType : String
  createdAt : JDate
  deriving DecidableEq

/-- Insert payload for users (row minus id and createdAt). -/
structure InsertUser where
  username : String
  password : String
  firstName : String
  lastName : String
  email : String
  phone : Option String
  userType : String
  deriving DecidableEq

/-- Properties table row. -/
structure Property where
  id : Nat
  landlordId : Nat
  name : String
  address : String
  city : String
  state : String
  zip : String
  totalUnits : Int
  isActive : Bool
  createdAt : JDate
  deriving DecidableEq

/-- Insert payload for properties. -/
structure InsertProperty where
  landlordId : Nat
  name : String
  address : String
  city : String
  state : String
  zip : String
  totalUnits : Int
  isActive : Bool
  deriving DecidableEq

/-- Fields of `Partial InsertProperty`: every field optional. -/
structure PartialInsertProperty where
  landlordId : Option Nat := none
  name : Option String := none
  address : Option String := none
  city : Option String := none
  state : Option String := none
  zip : Option String := none
  totalUnits : Option Int := none
  isActive : Option Bool := none
  deriving DecidableEq

/-- Units table row. -/
structure Unit where
  id : Nat
  propertyId : Nat
  unitNumber : String
  monthlyRent : Int
  bedrooms : Int
  bathrooms : Int
  sqft : Option Int
  description : Option String
  isOccupied : Bool
  createdAt : JDate
  deriving DecidableEq

/-- Insert payload for units. -/
structure InsertUnit where
  propertyId : Nat
  unitNumber : String
  monthlyRent : Int
  bedrooms : Int
  bathrooms : Int
  sqft : Option Int
  description : Option String
  isOccupied : Bool
  deriving DecidableEq

/-- Fields of `Partial InsertUnit`. -/
structure PartialInsertUnit where
  propertyId : Option Nat := none
  unitNumber : Option String := none
  monthlyRent : Option Int := none
  bedrooms : Option Int := none
  bathrooms : Option Int := none
  sqft : Option (Option Int) := none
  description : Option (Option String) := none
  isOccupied : Option Bool := none
  deriving DecidableEq

/-- Tenants table row. -/
structure Tenant where
  id : Nat
  userId : Nat
  unitId : Nat
  leaseStartDate : JDate
  leaseEndDate : JDate
  rentDueDay : Int
  isActive : Bool
  createdAt : JDate
  deriving DecidableEq

/-- Insert payload for tenants. -/
structure InsertTenant where
  userId : Nat
  unitId : Nat
  leaseStartDate : JDate
  leaseEndDate : JDate
  rentDueDay : Int
  isActive : Bool
  deriving DecidableEq

/-- Fields of `Partial InsertTenant`. -/
structure PartialInsertTenant where
  userId : Option Nat := none
  unitId : Option Nat := none
  leaseStartDate : Option JDate := none
  leaseEndDate : Option JDate := none
  rentDueDay : Option Int := none
  isActive : Option Bool := none
  deriving DecidableEq

/-- Payments table row.  `amount` is a numeric column; see the header note. -/
structure Payment where
  id : Nat
  tenantId : Nat
  amount : Int
  dueDate : JDate
  paymentDate : Option JDate
  status : String
  paymentMethod : Option String
  notes : Option String
  createdAt : JDate
  deriving DecidableEq

/-- Insert payload for payments. -/
structure InsertPayment where
  tenantId : Nat
  amount : Int
  dueDate : JDate
  paymentDate : Option JDate
  status : String
  paymentMethod : Option String
  notes : Option String
  deriving DecidableEq

/-- Fields of `Partial InsertPayment`. -/
structure PartialInsertPayment where
  tenantId : Option Nat := none
  amount : Option Int := none
  dueDate : Option JDate := none
  paymentDate : Option (Option JDate) := none
  status : Option String := none
  paymentMethod : Option (Option String) := none
  notes : Option (Option String) := none
  deriving DecidableEq

/-- Notifications table row. -/
structure Notification where
  id : Nat
  userId : Nat
  message : String
  type : String
  isRead : Bool
  createdAt : JDate
  deriving DecidableEq

/-- Insert payload for notifications. -/
structure InsertNotification where
  userId : Nat
  message : String
  type : String
  isRead : Bool
  deriving DecidableEq

/-- Fields of `Partial InsertNotification`. -/
structure PartialInsertNotification where
  userId : Option Nat := none
  message : Option String := none
  type : Option String := none
  isRead : Option Bool := none
  deriving DecidableEq

/-- `map.get(k)` on a JS `Map`. -/
def mget {α : Type} (m : List (Nat × α)) (k : Nat) : Option α :=
  (m.find? (fun e => e.1 == k)).map (fun e => e.2)

/-- `map.set(k, v)` on a JS `Map`: replaces the value in place when the key
is present (preserving iteration order), appends otherwise. -/
def mset {α : Type} (m : List (Nat × α)) (k : Nat) (v : α) : List (Nat × α) :=
  if m.any (fun e => e.1 == k) then
    m.map (fun e => if e.1 == k then (k, v) else e)
  else
    m ++ [(k, v)]

/-- `map.delete(k)` on a JS `Map` (the state part). -/
def mdelete {α : Type} (m : List (Nat × α)) (k : Nat) : List (Nat × α) :=
  m.filter (fun e => e.1 != k)

/-- `Array.from(map.values())`. -/
def mvalues {α : Type} (m : List (Nat × α)) : List α :=
  m.map (fun e => e.2)

/-- The per-entity id counter object `currentId` of `MemStorage`. -/
structure CurrentId where
  user : Nat
  property : Nat
  unit : Nat
  tenant : Nat
  payment : Nat
  notification : Nat
  deriving DecidableEq

/-- The state of a `MemStorage` instance: the six entity maps and the id
counters.  The session store is external and carries no entity data. -/
structure MemStorage where
  userMap : List (Nat × User)
  propertyMap : List (Nat × Property)
  unitMap : List (Nat × Unit)
  tenantMap : List (Nat × Tenant)
  paymentMap : List (Nat × Payment)
  notificationMap : List (Nat × Notification)
  currentId : CurrentId
  deriving DecidableEq

/-- Freshly constructed `MemStorage`: empty maps, all counters at 1. -/
def initStorage : MemStorage :=
  { userMap := []
    propertyMap := []
    unitMap := []
    tenantMap := []
    paymentMap := []
    notificationMap := []
    currentId :=
      { user := 1, property := 1, unit := 1, tenant := 1, payment := 1, notification := 1 } }

/-- Spread merge `{ ...property, ...propertyData }` for a partial property
update: provided fields replace the old values, id and createdAt are kept. -/
def mergeProperty (p : Property) (d : PartialInsertProperty) : Property :=
  { id := p.id
    landlordId := d.landlordId.getD p.landlordId
    name := d.name.getD p.name
    address := d.address.getD p.address
    city := d.city.getD p.city
    state := d.state.getD p.state
    zip := d.zip.getD p.zip
    totalUnits := d.totalUnits.getD p.totalUnits
    isActive := d.isActive.getD p.isActive
    createdAt := p.createdAt }

/-- Spread merge `{ ...unit, ...unitData }`. -/
def mergeUnit (u : Unit) (d : PartialInsertUnit) : Unit :=
  { id := u.id
    propertyId := d.propertyId.getD u.propertyId
    unitNumber := d.unitNumber.getD u.unitNumber
    monthlyRent := d.monthlyRent.getD u.monthlyRent
    bedrooms := d.bedrooms.getD u.bedrooms
    bathrooms := d.bathrooms.getD u.bathrooms
    sqft := d.sqft.getD u.sqft
    description := d.description.getD u.description
    isOccupied := d.isOccupied.getD u.isOccupied
    createdAt := u.createdAt }

/-- Spread merge `{ ...tenant, ...tenantData }`. -/
def mergeTenant (t : Tenant) (d : PartialInsertTenant) : Tenant :=
  { id := t.id
    userId := d.userId.getD t.userId
    unitId := d.unitId.getD t.unitId
    leaseStartDate := d.leaseStartDate.getD t.leaseStartDate
    leaseEndDate := d.leaseEndDate.getD t.leaseEndDate
    rentDueDay := d.rentDueDay.getD t.rentDueDay
    isActive := d.isActive.getD t.isActive
    createdAt := t.createdAt }

/-- Spread merge `{ ...payment, ...paymentData }`. -/
def mergePayment (p : Payment) (d : PartialInsertPayment) : Payment :=
  { id := p.id
    tenantId := d.tenantId.getD p.tenantId
    amount := d.amount.getD p.amount
    dueDate := d.dueDate.getD p.dueDate
    paymentDate := d.paymentDate.getD p.paymentDate
    status := d.status.getD p.status
    paymentMethod := d.paymentMethod.getD p.paymentMethod
    notes := d.notes.getD p.notes
    createdAt := p.createdAt }

/-- Spread merge `{ ...notification, ...notificationData }`. -/
def mergeNotification (n : Notification) (d : PartialInsertNotification) : Notification :=
  { id := n.id
    userId := d.userId.getD n.userId
    message := d.message.getD n.message
    type := d.type.getD n.type
    isRead := d.isRead.getD n.isRead
    createdAt := n.createdAt }

namespace MemStorage

/-- `getUser(id)`. -/
def getUser (s : MemStorage) (id : Nat) : Option User :=
  mget s.userMap id

/-- `getUserByUsername(username)`. -/
def getUserByUsername (s : MemStorage) (username : String) : Option User :=
  (mvalues s.userMap).find? (fun u => u.username == username)

/-- `createUser(insertUser)`: assigns the next user id, stamps `createdAt`
with the current instant (`now` models the `new Date()` call), stores and
returns the full record. -/
def createUser (s : MemStorage) (now : JDate) (d : InsertUser) : User × MemStorage :=
  let id := s.currentId.user
  let user : User :=
    { id := id, username := d.username, password := d.password, firstName := d.firstName
      lastName := d.lastName, email := d.email, phone := d.phone, userType := d.userType
      createdAt := now }
  (user,
    { s with userMap := mset s.userMap id user
             currentId := { s.currentId with user := id + 1 } })

/-- `getProperty(id)`. -/
def getProperty (s : MemStorage) (id : Nat) : Option Property :=
  mget s.propertyMap id

/-- `getPropertiesByLandlord(landlordId)`: linear scan filtered on
`landlordId`. -/
def getPropertiesByLandlord (s : MemStorage) (landlordId : Nat) : List Property :=
  (mvalues s.propertyMap).filter (fun p => p.landlordId == landlordId)

/-- `createProperty(insertProperty)`. -/
def createProperty (s : MemStorage) (now : JDate) (d : InsertProperty) :
    Property × MemStorage :=
  let id := s.currentId.property
  let property : Property :=
    { id := id, landlordId := d.landlordId, name := d.name, address := d.address
      city := d.city, state := d.state, zip := d.zip, totalUnits := d.totalUnits
      isActive := d.isActive, createdAt := now }
  (property,
    { s with propertyMap := mset s.propertyMap id property
             currentId := { s.currentId with property := id + 1 } })

/-- `updateProperty(id, propertyData)`: absent id returns `none` leaving the
state untouched, otherwise the shallow merge is stored and returned. -/
def updateProperty (s : MemStorage) (id : Nat) (d : PartialInsertProperty) :
    Option Property × MemStorage :=
  match mget s.propertyMap id with
  | none => (none, s)
  | some p =>
    let updated := mergeProperty p d
    (some updated, { s with propertyMap := mset s.propertyMap id updated })

/-- `deleteProperty(id)`: returns whether a row was present. -/
def deleteProperty (s : MemStorage) (id : Nat) : Bool × MemStorage :=
  (s.propertyMap.any (fun e => e.1 == id),
   { s with propertyMap := mdelete s.propertyMap id })

/-- `getUnit(id)`. -/
def getUnit (s : MemStorage) (id : Nat) : Option Unit :=
  mget s.unitMap id

/-- `getUnitsByProperty(propertyId)`. -/
def getUnitsByProperty (s : MemStorage) (propertyId : Nat) : List Unit :=
  (mvalues s.unitMap).filter (fun u => u.propertyId == propertyId)

/-- `createUnit(insertUnit)`. -/
def createUnit (s : MemStorage) (now : JDate) (d : InsertUnit) : Unit × MemStorage :=
  let id := s.currentId.unit
  let unit : Unit :=
    { id := id, propertyId := d.propertyId, unitNumber := d.unitNumber
      monthlyRent := d.monthlyRent, bedrooms := d.bedrooms, bathrooms := d.bathrooms
      sqft := d.sqft, description := d.description, isOccupied := d.isOccupied
      createdAt := now }
  (unit,
    { s with unitMap := mset s.unitMap id unit
             currentId := { s.currentId with unit := id + 1 } })

/-- `updateUnit(id, unitData)`. -/
def updateUnit (s : MemStorage) (id : Nat) (d : PartialInsertUnit) :
    Option Unit × MemStorage :=
  match mget s.unitMap id with
  | none => (none, s)
  | some u =>
    let updated := mergeUnit u d
    (some updated, { s with unitMap := mset s.unitMap id updated })

/-- `deleteUnit(id)`. -/
def deleteUnit (s : MemStorage) (id : Nat) : Bool × MemStorage :=
  (s.unitMap.any (fun e => e.1 == id),
   { s with unitMap := mdelete s.unitMap id })

/-- `getTenant(id)`. -/
def getTenant (s : MemStorage) (id : Nat) : Option Tenant :=
  mget s.tenantMap id

/-- `getTenantByUserId(userId)`. -/
def getTenantByUserId (s : MemStorage) (userId : Nat) : Option Tenant :=
  (mvalues s.tenantMap).find? (fun t => t.userId == userId)

/-- `createTenant(insertTenant)`: stores the new tenant row, then flags the
target unit occupied when that unit exists (`updateUnit` with
`{ isOccupied: true }`); a unit id that does not resolve leaves the unit
map untouched. -/
def createTenant (s : MemStorage) (now : JDate) (d : InsertTenant) :
    Tenant × MemStorage :=
  let id := s.currentId.tenant
  let tenant : Tenant :=
    { id := id, userId := d.userId, unitId := d.unitId
      leaseStartDate := d.leaseStartDate, leaseEndDate := d.leaseEndDate
      rentDueDay := d.rentDueDay, isActive := d.isActive, createdAt := now }
  let s1 : MemStorage :=
    { s with tenantMap := mset s.tenantMap id tenant
             currentId := { s.currentId with tenant := id + 1 } }
  match getUnit s1 tenant.unitId with
  | none => (tenant, s1)
  | some unit => (tenant, (updateUnit s1 unit.id { isOccupied := some true }).2)

/-- The `tenantData.unitId && tenantData.unitId !== tenant.unitId` guard of
`updateTenant`; a provided unit id of 0 is falsy in JS and skips the
occupancy maintenance. -/
def unitIdChanging (d : PartialInsertTenant) (t : Tenant) : Bool :=
  match d.unitId with
  | some u => u != 0 && u != t.unitId
  | none => false

/-- `updateTenant(id, tenantData)`: absent id returns `none` with the state
untouched.  When the unit id is changing, the old unit is freed exactly
when no other active tenant still references it, and the new unit (when it
resolves) is flagged occupied unconditionally; finally the merged tenant
row is stored. -/
def updateTenant (s : MemStorage) (id : Nat) (d : PartialInsertTenant) :
    Option Tenant × MemStorage :=
  match mget s.tenantMap id with
  | none => (none, s)
  | some tenant =>
    let s1 : MemStorage :=
      if unitIdChanging d tenant then
        let oldUnit := getUnit s tenant.unitId
        let newUnit := getUnit s (d.unitId.getD 0)
        let s2 : MemStorage :=
          match oldUnit with
          | none => s
          | some ou =>
            let otherTenants := (mvalues s.tenantMap).filter
              (fun t => t.id != id && t.unitId == ou.id && t.isActive)
            if otherTenants.isEmpty then
              (updateUnit s ou.id { isOccupied := some false }).2
            else s
        match newUnit with
        | none => s2
        | some nu => (updateUnit s2 nu.id { isOccupied := some true }).2
      else s
    let updated := mergeTenant tenant d
    (some updated, { s1 with tenantMap := mset s1.tenantMap id updated })

/-- `deleteTenant(id)`: when the row exists and its unit resolves, the unit
is freed exactly when no other active tenant references it; then the row
is removed and presence is reported. -/
def deleteTenant (s : MemStorage) (id : Nat) : Bool × MemStorage :=
  let s1 : MemStorage :=
    match mget s.tenantMap id with
    | none => s
    | some tenant =>
      match getUnit s tenant.unitId with
      | none => s
      | some unit =>
        let otherTenants := (mvalues s.tenantMap).filter
          (fun t => t.id != id && t.unitId == unit.id && t.isActive)
        if otherTenants.isEmpty then
          (updateUnit s unit.id { isOccupied := some false }).2
        else s
  (s1.tenantMap.any (fun e => e.1 == id),
   { s1 with tenantMap := mdelete s1.tenantMap id })

end MemStorage

/-- The enriched `unit` view `{ ...unit, property }` returned by
`getTenantsByLandlord`; `property` keeps the optionality of the map
lookup behind the non-null assertion. -/
structure UnitWithProperty where
  unit : Unit
  property : Option Property
  deriving DecidableEq

/-- The enriched tenant view `{ ...tenant, user, unit: {...unit, property} }`. -/
structure TenantFull where
  tenant : Tenant
  user : Option User
  unit : Option UnitWithProperty
  deriving DecidableEq

/-- The enriched payment view `{ ...payment, tenant }`. -/
structure PaymentFull where
  payment : Payment
  tenant : Option TenantFull
  deriving DecidableEq

namespace MemStorage

/-- Enrichment step of `getTenantsByLandlord` for one tenant row: looks up
its user, its unit and the unit's property. -/
def enrichTenant (s : MemStorage) (t : Tenant) : TenantFull :=
  { tenant := t
    user := mget s.userMap t.userId
    unit := (mget s.unitMap t.unitId).map
      (fun u => { unit := u, property := mget s.propertyMap u.propertyId }) }

/-- `getTenantsByLandlord(landlordId)`: landlord properties, their unit ids,
tenants on those units, each enriched with user and unit+property. -/
def getTenantsByLandlord (s : MemStorage) (landlordId : Nat) : List TenantFull :=
  let properties := getPropertiesByLandlord s landlordId
  let propertyIds := properties.map (fun p => p.id)
  let units := (mvalues s.unitMap).filter (fun u => propertyIds.contains u.propertyId)
  let unitIds := units.map (fun u => u.id)
  let tenants := (mvalues s.tenantMap).filter (fun t => unitIds.contains t.unitId)
  tenants.map (enrichTenant s)

/-- `getPayment(id)`. -/
def getPayment (s : MemStorage) (id : Nat) : Option Payment :=
  mget s.paymentMap id

/-- `getPaymentsByTenant(tenantId)`. -/
def getPaymentsByTenant (s : MemStorage) (tenantId : Nat) : List Payment :=
  (mvalues s.paymentMap).filter (fun p => p.tenantId == tenantId)

/-- `getPaymentsByLandlord(landlordId)`: payments whose `tenantId` is among
the landlord tenants, each enriched with the matching enriched tenant. -/
def getPaymentsByLandlord (s : MemStorage) (landlordId : Nat) : List PaymentFull :=
  let tenants := getTenantsByLandlord s landlordId
  let tenantIds := tenants.map (fun t => t.tenant.id)
  let payments := (mvalues s.paymentMap).filter (fun p => tenantIds.contains p.tenantId)
  payments.map (fun p =>
    { payment := p, tenant := tenants.find? (fun t => t.tenant.id == p.tenantId) })

/-- `createPayment(insertPayment)`. -/
def createPayment (s : MemStorage) (now : JDate) (d : InsertPayment) :
    Payment × MemStorage :=
  let id := s.currentId.payment
  let payment : Payment :=
    { id := id, tenantId := d.tenantId, amount := d.amount, dueDate := d.dueDate
      paymentDate := d.paymentDate, status := d.status, paymentMethod := d.paymentMethod
      notes := d.notes, createdAt := now }
  (payment,
    { s with paymentMap := mset s.paymentMap id payment
             currentId := { s.currentId with payment := id + 1 } })

/-- `updatePayment(id, paymentData)`. -/
def updatePayment (s : MemStorage) (id : Nat) (d : PartialInsertPayment) :
    Option Payment × MemStorage :=
  match mget s.paymentMap id with
  | none => (none, s)
  | some p =>
    let updated := mergePayment p d
    (some updated, { s with paymentMap := mset s.paymentMap id updated })

/-- `deletePayment(id)`. -/
def deletePayment (s : MemStorage) (id : Nat) : Bool × MemStorage :=
  (s.paymentMap.any (fun e => e.1 == id),
   { s with paymentMap := mdelete s.paymentMap id })

/-- `getNotification(id)`. -/
def getNotification (s : MemStorage) (id : Nat) : Option Notification :=
  mget s.notificationMap id

/-- `getNotificationsByUser(userId)`: filtered, sorted descending by
`createdAt`. -/
def getNotificationsByUser (s : MemStorage) (userId : Nat) : List Notification :=
  ((mvalues s.notificationMap).filter (fun n => n.userId == userId)).mergeSort
    (fun a b => decide (b.createdAt.time ≤ a.createdAt.time))

/-- `createNotification(insertNotification)`. -/
def createNotification (s : MemStorage) (now : JDate) (d : InsertNotification) :
    Notification × MemStorage :=
  let id := s.currentId.notification
  let notification : Notification :=
    { id := id, userId := d.userId, message := d.message, type := d.type
      isRead := d.isRead, createdAt := now }
  (notification,
    { s with notificationMap := mset s.notificationMap id notification
             currentId := { s.currentId with notification := id + 1 } })

/-- `updateNotification(id, notificationData)`. -/
def updateNotification (s : MemStorage) (id : Nat) (d : PartialInsertNotification) :
    Option Notification × MemStorage :=
  match mget s.notificationMap id with
  | none => (none, s)
  | some n =>
    let updated := mergeNotification n d
    (some updated, { s with notificationMap := mset s.notificationMap id updated })

/-- `deleteNotification(id)`. -/
def deleteNotification (s : MemStorage) (id : Nat) : Bool × MemStorage :=
  (s.notificationMap.any (fun e => e.1 == id),
   { s with notificationMap := mdelete s.notificationMap id })

/-- `markNotificationAsRead(id)`. -/
def markNotificationAsRead (s : MemStorage) (id : Nat) :
    Option Notification × MemStorage :=
  match mget s.notificationMap id with
  | none => (none, s)
  | some n =>
    let updated : Notification := { n with isRead := true }
    (some updated, { s with notificationMap := mset s.notificationMap id updated })

end MemStorage

/-- One entry of the `monthlyIncome` series. -/
structure MonthEntry where
  month : String
  amount : Int
  deriving DecidableEq

/-- A landlord property together with its unit list. -/
structure PropertyWithUnits where
  property : Property
  units : List Unit
  deriving DecidableEq

/-- The dashboard summary object. -/
structure Dashboard where
  propertiesCount : Nat
  tenantsCount : Nat
  upcomingPaymentsTotal : Int
  overduePaymentsTotal : Int
  properties : List PropertyWithUnits
  tenantActivity : List PaymentFull
  monthlyIncome : List MonthEntry
  deriving DecidableEq

/-- Filter predicate of `upcomingPayments`: pending with a due date
strictly after `now`. -/
def upcomingPred (now : JDate) (p : PaymentFull) : Bool :=
  p.payment.status == "pending" && now.time < p.payment.dueDate.time

/-- Filter predicate of `overduePayments`: overdue, or pending with a due
date strictly before `now`. -/
def overduePred (now : JDate) (p : PaymentFull) : Bool :=
  p.payment.status == "overdue" ||
    (p.payment.status == "pending" && p.payment.dueDate.time < now.time)

/-- Filter predicate of `monthPayments` for the bucket with normalised year
`y` and month index `m`: a non-null `paymentDate` in that calendar
month/year with status paid. -/
def paidInMonth (y : Int) (m : Nat) (p : PaymentFull) : Bool :=
  match p.payment.paymentDate with
  | none => false
  | some pd => pd.month == m && pd.year == y && p.payment.status == "paid"

/-- The fold `reduce((sum, p) => sum + Number(p.amount), 0)`. -/
def sumAmounts (l : List PaymentFull) : Int :=
  l.foldl (fun acc p => acc + p.payment.amount) 0

/-- One entry of the monthly income loop, for loop counter `i` (5 down
to 0): the bucket is `new Date(today.getFullYear(), today.getMonth() - i, 1)`
and the label is the month name plus a quote and the 2-digit year. -/
def monthlyIncomeEntry (today : JDate) (payments : List PaymentFull) (i : Nat) :
    MonthEntry :=
  let ym := normYM today.year (today.month - (i : Int))
  let label := monthName ym.2 ++ " " ++ squote ++ (toString ym.1).drop 2
  { month := label, amount := sumAmounts (payments.filter (paidInMonth ym.1 ym.2)) }

namespace MemStorage

/-- `getDashboardData(landlordId)`.  `now` models the `new Date()` taken for
the due-date comparisons and `today` the one taken for the monthly-income
buckets (the code constructs two instants). -/
def getDashboardData (s : MemStorage) (landlordId : Nat) (now today : JDate) :
    Dashboard :=
  let properties := getPropertiesByLandlord s landlordId
  let tenants := getTenantsByLandlord s landlordId
  let payments := getPaymentsByLandlord s landlordId
  let upcomingPayments := payments.filter (upcomingPred now)
  let overduePayments := payments.filter (overduePred now)
  let propertiesWithUnits := properties.map
    (fun p => { property := p, units := getUnitsByProperty s p.id : PropertyWithUnits })
  let tenantActivity := (payments.mergeSort
    (fun a b => decide (b.payment.createdAt.time ≤ a.payment.createdAt.time))).take 10
  let monthlyIncome := (List.range 6).map
    (fun j => monthlyIncomeEntry today payments (5 - j))
  { propertiesCount := properties.length
    tenantsCount := tenants.length
    upcomingPaymentsTotal := sumAmounts upcomingPayments
    overduePaymentsTotal := sumAmounts overduePayments
    properties := propertiesWithUnits
    tenantActivity := tenantActivity
    monthlyIncome := monthlyIncome }

end MemStorage

/-! Representation invariant of the JS maps: keys are unique (a `Map` holds
one entry per key), every stored record carries its own key as its `id`
field (every `set` in the source writes `map.set(id, record)` with
`record.id = id`), and every key is below the id counter of its entity
type (keys are only ever drawn from the counter). -/

/-- Well-formedness of one entity map with respect to its id counter. -/
def mapWf {α : Type} (m : List (Nat × α)) (getId : α → Nat) (counter : Nat) : Prop :=
  (m.map (fun e => e.1)).Nodup ∧ (∀ e ∈ m, getId e.2 = e.1) ∧ ∀ e ∈ m, e.1 < counter

/-- Well-formedness of a whole `MemStorage` state. -/
def MemStorage.Wf (s : MemStorage) : Prop :=
  mapWf s.userMap User.id s.currentId.user ∧
  mapWf s.propertyMap Property.id s.currentId.property ∧
  mapWf s.unitMap Unit.id s.currentId.unit ∧
  mapWf s.tenantMap Tenant.id s.currentId.tenant ∧
  mapWf s.paymentMap Payment.id s.currentId.payment ∧
  mapWf s.notificationMap Notification.id s.currentId.notification

theorem mget_nil {α : Type} (k : Nat) : mget ([] : List (Nat × α)) k = none := rfl

theorem mget_cons {α : Type} (e : Nat × α) (m : List (Nat × α)) (k : Nat) :
    mget (e :: m) k = if e.1 = k then some e.2 else mget m k := by
  by_cases h : e.1 = k
  · simp [mget, List.find?_cons, h]
  · simp [mget, List.find?_cons, h]

theorem mget_append {α : Type} (m₁ m₂ : List (Nat × α)) (k : Nat) :
    mget (m₁ ++ m₂) k = (mget m₁ k).or (mget m₂ k) := by
  induction m₁ with
  | nil => simp [mget_nil]
  | cons e es ih =>
    by_cases h : e.1 = k <;> simp [mget_cons, h, ih]

theorem mget_eq_none_iff {α : Type} (m : List (Nat × α)) (k : Nat) :
    mget m k = none ↔ ∀ e ∈ m, e.1 ≠ k := by
  induction m with
  | nil => simp [mget_nil]
  | cons e es ih =>
    by_cases h : e.1 = k <;> simp [mget_cons, h, ih]

theorem mem_of_mget_eq_some {α : Type} {m : List (Nat × α)} {k : Nat} {v : α}
    (h : mget m k = some v) : (k, v) ∈ m := by
  induction m with
  | nil => simp [mget_nil] at h
  | cons e es ih =>
    rw [mget_cons] at h
    by_cases he : e.1 = k
    · rw [if_pos he] at h
      have hev : e = (k, v) := by
        obtain ⟨e1, e2⟩ := e
        simp only [Option.some.injEq] at h
        simp only at he
        rw [he, h]
      rw [← hev]
      exact List.mem_cons_self e es
    · rw [if_neg he] at h
      exact List.mem_cons_of_mem _ (ih h)

theorem any_key_iff_mget_isSome {α : Type} (m : List (Nat × α)) (k : Nat) :
    (m.any (fun e => e.1 == k)) = (mget m k).isSome := by
  induction m with
  | nil => simp [mget_nil]
  | cons e es ih =>
    by_cases h : e.1 = k <;> simp [mget_cons, h, ih]

theorem mget_replace {α : Type} (m : List (Nat × α)) (k k' : Nat) (v : α) :
    mget (m.map (fun e => if e.1 == k then (k, v) else e)) k' =
      if k' = k then (mget m k).map (fun _ => v) else mget m k' := by
  induction m with
  | nil => by_cases h : k' = k <;> simp [mget_nil, h]
  | cons e es ih =>
    simp only [List.map_cons]
    by_cases he : e.1 = k
    · have hhead : (if (e.1 == k) = true then (k, v) else e) = (k, v) := by simp [he]
      rw [hhead]
      by_cases h : k' = k
      · subst h
        simp [mget_cons, he]
      · rw [if_neg h, mget_cons, if_neg (fun hc : k = k' => h hc.symm), ih, if_neg h,
          mget_cons, if_neg (fun hc : e.1 = k' => h (he ▸ hc).symm)]
    · have hhead : (if (e.1 == k) = true then (k, v) else e) = e := by simp [he]
      rw [hhead]
      by_cases h : k' = k
      · subst h
        rw [mget_cons, if_neg (fun hc : e.1 = k' => he hc), ih]
        simp [mget_cons, he]
      · rw [if_neg h, mget_cons, mget_cons]
        by_cases he' : e.1 = k'
        · rw [if_pos he', if_pos he']
        · rw [if_neg he', if_neg he', ih, if_neg h]

theorem mget_mset_self {α : Type} (m : List (Nat × α)) (k : Nat) (v : α) :
    mget (mset m k v) k = some v := by
  unfold mset
  by_cases h : m.any (fun e => e.1 == k)
  · rw [if_pos h, mget_replace, if_pos rfl]
    rw [any_key_iff_mget_isSome] at h
    obtain ⟨w, hw⟩ := Option.isSome_iff_exists.mp h
    rw [hw]
    rfl
  · rw [if_neg h, mget_append]
    have hnone : mget m k = none := by
      rw [mget_eq_none_iff]
      intro e he
      by_contra hk
      exact h (List.any_eq_true.mpr ⟨e, he, by simpa using hk⟩)
    simp [hnone, mget_cons]

theorem mget_mset_ne {α : Type} (m : List (Nat × α)) (k k' : Nat) (v : α)
    (h : k' ≠ k) : mget (mset m k v) k' = mget m k' := by
  unfold mset
  by_cases hp : m.any (fun e => e.1 == k)
  · rw [if_pos hp, mget_replace, if_neg h]
  · rw [if_neg hp, mget_append]
    have hkv : mget [(k, v)] k' = none := by
      rw [mget_cons, if_neg (fun hc : k = k' => h hc.symm)]
      rfl
    rw [hkv]
    cases mget m k' <;> rfl

theorem mget_of_mem_nodup {α : Type} {m : List (Nat × α)} {k : Nat} {v : α}
    (hnd : (m.map (fun e => e.1)).Nodup) (hmem : (k, v) ∈ m) :
    mget m k = some v := by
  induction m with
  | nil => simp at hmem
  | cons e es ih =>
    have hnd' : e.1 ∉ es.map (fun e => e.1) ∧ (es.map (fun e => e.1)).Nodup := by
      rw [List.map_cons, List.nodup_cons] at hnd
      exact hnd
    rcases List.mem_cons.mp hmem with heq | htail
    · rw [← heq, mget_cons]
      simp
    · have hk : k ∈ es.map (fun e => e.1) :=
        List.mem_map.mpr ⟨(k, v), htail, rfl⟩
      have hne : e.1 ≠ k := fun hc => hnd'.1 (hc ▸ hk)
      rw [mget_cons, if_neg hne]
      exact ih hnd'.2 htail

theorem mdelete_eq_self_of_mget_none {α : Type} {m : List (Nat × α)} {k : Nat}
    (h : mget m k = none) : mdelete m k = m := by
  rw [mget_eq_none_iff] at h
  unfold mdelete
  rw [List.filter_eq_self]
  intro e he
  simpa using h e he

theorem mget_mdelete_ne {α : Type} (m : List (Nat × α)) (k k' : Nat)
    (h : k' ≠ k) : mget (mdelete m k) k' = mget m k' := by
  induction m with
  | nil => rfl
  | cons e es ih =>
    simp only [mdelete] at ih ⊢
    rw [List.filter_cons]
    by_cases he : e.1 = k
    · have hne : ¬ e.1 = k' := by rw [he]; exact fun hc => h hc.symm
      rw [if_neg (by simp [he] : ¬ (e.1 != k) = true)]
      rw [ih, mget_cons, if_neg hne]
    · rw [if_pos (by simp [he] : (e.1 != k) = true)]
      rw [mget_cons, mget_cons]
      by_cases he' : e.1 = k'
      · rw [if_pos he', if_pos he']
      · rw [if_neg he', if_neg he', ih]

/-- A unit id has an active tenant row referencing it. -/
def unitHasActiveTenant (tm : List (Nat × Tenant)) (uid : Nat) : Bool :=
  tm.any (fun e => e.2.unitId == uid && e.2.isActive)

/-- The occupancy invariant of the specification: every stored unit is
flagged occupied exactly when some stored tenant row references it and is
active. -/
def OccInv (s : MemStorage) : Prop :=
  ∀ e ∈ s.unitMap, e.2.isOccupied = unitHasActiveTenant s.tenantMap e.2.id

instance {α : Type} (m : List (Nat × α)) (getId : α → Nat) (c : Nat) :
    Decidable (mapWf m getId c) := by
  unfold mapWf
  infer_instance

instance (s : MemStorage) : Decidable (MemStorage.Wf s) := by
  unfold MemStorage.Wf
  infer_instance

instance (s : MemStorage) : Decidable (OccInv s) := by
  unfold OccInv
  infer_instance

/-! Small concrete states used to instantiate the theorems below: a
landlord (user 1), a tenant user (user 2), one property (id 1) owned by
the landlord, two vacant units (ids 1 and 2) on that property. -/

/-- A sample instant. -/
def exDate : JDate := { time := 1000, year := 2025, month := 9 }

/-- INSERT payload for the sample active tenant (user 2 renting unit 1). -/
def exInsTen : InsertTenant :=
  { userId := 2, unitId := 1, leaseStartDate := exDate, leaseEndDate := exDate
    rentDueDay := 1, isActive := true }

/-- Base sample store: two users, one property, two vacant units. -/
def exState0 : MemStorage :=
  let r1 := (MemStorage.createUser initStorage exDate
    { username := "landlord", password := "x", firstName := "J", lastName := "S"
      email := "l@example.com", phone := none, userType := "landlord" }).2
  let r2 := (MemStorage.createUser r1 exDate
    { username := "tenant", password := "x", firstName := "A", lastName := "B"
      email := "t@example.com", phone := none, userType := "tenant" }).2
  let r3 := (MemStorage.createProperty r2 exDate
    { landlordId := 1, name := "P", address := "a", city := "c", state := "s"
      zip := "z", totalUnits := 2, isActive := true }).2
  let r4 := (MemStorage.createUnit r3 exDate
    { propertyId := 1, unitNumber := "101", monthlyRent := 1200, bedrooms := 2
      bathrooms := 1, sqft := none, description := none, isOccupied := false }).2
  (MemStorage.createUnit r4 exDate
    { propertyId := 1, unitNumber := "102", monthlyRent := 950, bedrooms := 1
      bathrooms := 1, sqft := none, description := none, isOccupied := false }).2

/-- Sample store after creating the active tenant on unit 1. -/
def exStateT : MemStorage :=
  (MemStorage.createTenant exState0 exDate exInsTen).2

/-- The tenant row created in `exStateT`. -/
def exTen1 : Tenant :=
  { id := 1, userId := 2, unitId := 1, leaseStartDate := exDate, leaseEndDate := exDate
    rentDueDay := 1, isActive := true, createdAt := exDate }

/-- Unit 1 as stored in `exStateT` (occupied). -/
def exUnitOcc : Unit :=
  { id := 1, propertyId := 1, unitNumber := "101", monthlyRent := 1200, bedrooms := 2
    bathrooms := 1, sqft := none, description := none, isOccupied := true
    createdAt := exDate }

/-- C8: an update operation called with an id that is absent from its store
returns the absent marker (`none`, modelling `undefined`) rather than
raising an error, and the whole store state is unchanged, for each of the
five updatable entity types. -/
theorem update_absent_id_no_change (s : MemStorage)
    (idP idU idT idPay idN : Nat)
    (dp : PartialInsertProperty) (du : PartialInsertUnit) (dt : PartialInsertTenant)
    (dpay : PartialInsertPayment) (dn : PartialInsertNotification)
    (hP : mget s.propertyMap idP = none) (hU : mget s.unitMap idU = none)
    (hT : mget s.tenantMap idT = none) (hPay : mget s.paymentMap idPay = none)
    (hN : mget s.notificationMap idN = none) :
    MemStorage.updateProperty s idP dp = (none, s) ∧
    MemStorage.updateUnit s idU du = (none, s) ∧
    MemStorage.updateTenant s idT dt = (none, s) ∧
    MemStorage.updatePayment s idPay dpay = (none, s) ∧
    MemStorage.updateNotification s idN dn = (none, s) := by
  refine ⟨?_, ?_, ?_, ?_, ?_⟩ <;>
    simp [MemStorage.updateProperty, MemStorage.updateUnit, MemStorage.updateTenant,
      MemStorage.updatePayment, MemStorage.updateNotification, hP, hU, hT, hPay, hN]

/-- Witness for C8 on the freshly constructed store at id 7. -/
theorem update_absent_id_no_change_witness :
    (mget initStorage.propertyMap 7 = none ∧ mget initStorage.unitMap 7 = none ∧
      mget initStorage.tenantMap 7 = none ∧ mget initStorage.paymentMap 7 = none ∧
      mget initStorage.notificationMap 7 = none) ∧
    (MemStorage.updateProperty initStorage 7 {} = (none, initStorage) ∧
      MemStorage.updateUnit initStorage 7 {} = (none, initStorage) ∧
      MemStorage.updateTenant initStorage 7 {} = (none, initStorage) ∧
      MemStorage.updatePayment initStorage 7 {} = (none, initStorage) ∧
      MemStorage.updateNotification initStorage 7 {} = (none, initStorage)) :=
  ⟨⟨rfl, rfl, rfl, rfl, rfl⟩,
    update_absent_id_no_change initStorage 7 7 7 7 7 {} {} {} {} {} rfl rfl rfl rfl rfl⟩

/-- C9: creating a tenant whose `unitId` resolves to no stored unit still
assigns the next tenant id, stores the full row, and returns it (the
operation is total, so no error is raised), and the unit map is not
modified. -/
theorem createTenant_unknown_unit (s : MemStorage) (now : JDate) (d : InsertTenant)
    (h : mget s.unitMap d.unitId = none) :
    (MemStorage.createTenant s now d).1 =
      { id := s.currentId.tenant, userId := d.userId, unitId := d.unitId
        leaseStartDate := d.leaseStartDate, leaseEndDate := d.leaseEndDate
        rentDueDay := d.rentDueDay, isActive := d.isActive, createdAt := now } ∧
    mget (MemStorage.createTenant s now d).2.tenantMap s.currentId.tenant =
      some (MemStorage.createTenant s now d).1 ∧
    (MemStorage.createTenant s now d).2.unitMap = s.unitMap := by
  unfold MemStorage.createTenant
  simp [MemStorage.getUnit, h, mget_mset_self]

/-- Witness for C9: unit 77 does not exist in the sample store. -/
theorem createTenant_unknown_unit_witness :
    mget exState0.unitMap 77 = none ∧
    (MemStorage.createTenant exState0 exDate { exInsTen with unitId := 77 }).2.unitMap =
      exState0.unitMap :=
  ⟨by decide,
    (createTenant_unknown_unit exState0 exDate { exInsTen with unitId := 77 }
      (by decide)).2.2⟩

/-- C2: deleting tenant `T`, the only active tenant referencing unit `U`,
stores `U` with `isOccupied = false`; when a second active tenant row still
references `U` (and so survives the delete), the stored flag remains
`true`. -/
theorem deleteTenant_occupancy_cases (s : MemStorage) (T : Tenant) (U : Unit)
    (hT : mget s.tenantMap T.id = some T) (hU : mget s.unitMap U.id = some U)
    (hTU : T.unitId = U.id) (hTact : T.isActive = true) :
    ((∀ t ∈ mvalues s.tenantMap, t.id ≠ T.id → t.unitId = U.id → t.isActive = false) →
      ∃ U', mget (MemStorage.deleteTenant s T.id).2.unitMap U.id = some U' ∧
        U'.isOccupied = false) ∧
    (∀ t2 ∈ mvalues s.tenantMap, t2.id ≠ T.id → t2.unitId = U.id → t2.isActive = true →
      U.isOccupied = true →
      ∃ U', mget (MemStorage.deleteTenant s T.id).2.unitMap U.id = some U' ∧
        U'.isOccupied = true) := by
  constructor
  · intro honly
    have hfil : (mvalues s.tenantMap).filter
        (fun t => t.id != T.id && t.unitId == U.id && t.isActive) = [] := by
      rw [List.filter_eq_nil_iff]
      intro t ht
      by_cases h1 : t.id = T.id
      · simp [h1]
      · by_cases h2 : t.unitId = U.id
        · simp [h1, h2, honly t ht h1 h2]
        · simp [h1, h2]
    refine ⟨mergeUnit U { isOccupied := some false }, ?_, rfl⟩
    unfold MemStorage.deleteTenant
    rw [hT]
    simp only [MemStorage.getUnit, hTU, hU, hfil, List.isEmpty_nil, if_pos rfl]
    unfold MemStorage.updateUnit
    rw [hU]
    simp only
    exact mget_mset_self s.unitMap U.id (mergeUnit U { isOccupied := some false })
  · intro t2 ht2 hne hunit hact hOcc
    have hfil : ((mvalues s.tenantMap).filter
        (fun t => t.id != T.id && t.unitId == U.id && t.isActive)).isEmpty = false := by
      have : t2 ∈ (mvalues s.tenantMap).filter
          (fun t => t.id != T.id && t.unitId == U.id && t.isActive) := by
        rw [List.mem_filter]
        exact ⟨ht2, by simp [hne, hunit, hact]⟩
      cases hl : (mvalues s.tenantMap).filter
          (fun t => t.id != T.id && t.unitId == U.id && t.isActive) with
      | nil => rw [hl] at this; simp at this
      | cons a l => rfl
    refine ⟨U, ?_, hOcc⟩
    unfold MemStorage.deleteTenant
    rw [hT]
    simp only [MemStorage.getUnit, hTU, hU, hfil]
    simp [hU]

/-- Witness for C2, first part: in `exStateT` the sole active tenant of
unit 1 is tenant 1; deleting it clears the occupancy flag. -/
theorem deleteTenant_occupancy_cases_witness :
    (mget exStateT.tenantMap 1 = some exTen1 ∧ mget exStateT.unitMap 1 = some exUnitOcc) ∧
    (∃ U', mget (MemStorage.deleteTenant exStateT 1).2.unitMap 1 = some U' ∧
      U'.isOccupied = false) :=
  ⟨⟨by decide, by decide⟩,
    (deleteTenant_occupancy_cases exStateT exTen1 exUnitOcc (by decide) (by decide)
      rfl rfl).1 (by decide)⟩

/-- C3: updating tenant `T` (which references unit `A`, with no other
active tenant on `A`) to reference existing unit `B` stores `A` with
`isOccupied = false` and `B` with `isOccupied = true`.  The new unit is
flagged occupied unconditionally: no hypothesis on `T.isActive` is made,
so the statement covers an inactive `T` as well. -/
theorem updateTenant_move_occupancy (s : MemStorage) (T : Tenant) (A B : Unit)
    (d : PartialInsertTenant)
    (hT : mget s.tenantMap T.id = some T) (hA : mget s.unitMap A.id = some A)
    (hB : mget s.unitMap B.id = some B) (hTA : T.unitId = A.id)
    (hBA : B.id ≠ A.id) (hB0 : B.id ≠ 0) (hd : d.unitId = some B.id)
    (honly : ∀ t ∈ mvalues s.tenantMap, t.id ≠ T.id → t.unitId = A.id →
      t.isActive = false) :
    (∃ A', mget (MemStorage.updateTenant s T.id d).2.unitMap A.id = some A' ∧
      A'.isOccupied = false) ∧
    (∃ B', mget (MemStorage.updateTenant s T.id d).2.unitMap B.id = some B' ∧
      B'.isOccupied = true) := by
  have hchg : MemStorage.unitIdChanging d T = true := by
    rw [MemStorage.unitIdChanging, hd]
    simp [hB0, hTA ▸ hBA]
  have hfil : (mvalues s.tenantMap).filter
      (fun t => t.id != T.id && t.unitId == A.id && t.isActive) = [] := by
    rw [List.filter_eq_nil_iff]
    intro t ht
    by_cases h1 : t.id = T.id
    · simp [h1]
    · by_cases h2 : t.unitId = A.id
      · simp [h1, h2, honly t ht h1 h2]
      · simp [h1, h2]
  have hmB : mget (mset s.unitMap A.id (mergeUnit A { isOccupied := some false })) B.id
      = some B := by
    rw [mget_mset_ne _ _ _ _ hBA]
    exact hB
  have key : (MemStorage.updateTenant s T.id d).2.unitMap =
      mset (mset s.unitMap A.id (mergeUnit A { isOccupied := some false })) B.id
        (mergeUnit B { isOccupied := some true }) := by
    unfold MemStorage.updateTenant MemStorage.updateUnit
    rw [hT]
    simp [hchg, hd, MemStorage.getUnit, hTA, hA, hB, hfil, hmB]
  constructor
  · refine ⟨mergeUnit A { isOccupied := some false }, ?_, rfl⟩
    rw [key, mget_mset_ne _ B.id A.id _ (fun hc => hBA hc.symm)]
    exact mget_mset_self _ A.id _
  · refine ⟨mergeUnit B { isOccupied := some true }, ?_, rfl⟩
    rw [key]
    exact mget_mset_self _ B.id _

/-- Witness for C3: in `exStateT`, move tenant 1 (sole active tenant of
unit 1) to unit 2; unit 1 is freed and unit 2 flagged occupied. -/
theorem updateTenant_move_occupancy_witness :
    (mget exStateT.tenantMap 1 = some exTen1 ∧
      (mget exStateT.unitMap 2).isSome = true) ∧
    ((∃ A', mget (MemStorage.updateTenant exStateT 1 { unitId := some 2 }).2.unitMap 1 =
        some A' ∧ A'.isOccupied = false) ∧
      (∃ B', mget (MemStorage.updateTenant exStateT 1 { unitId := some 2 }).2.unitMap 2 =
        some B' ∧ B'.isOccupied = true)) :=
  ⟨⟨by decide, by decide⟩,
    updateTenant_move_occupancy exStateT exTen1 exUnitOcc
      { id := 2, propertyId := 1, unitNumber := "102", monthlyRent := 950, bedrooms := 1
        bathrooms := 1, sqft := none, description := none, isOccupied := false
        createdAt := exDate }
      { unitId := some 2 } (by decide) (by decide) (by decide) rfl (by decide)
      (by decide) rfl (by decide)⟩

theorem eq_of_mem_key_nodup {α : Type} {m : List (Nat × α)}
    (hnd : (m.map (fun e => e.1)).Nodup) {k : Nat} {v : α}
    (hget : mget m k = some v) {e : Nat × α} (he : e ∈ m) (hek : e.1 = k) :
    e.2 = v := by
  have h2 : mget m k = some e.2 := by
    subst hek
    exact mget_of_mem_nodup hnd he
  rw [hget] at h2
  exact (Option.some.injEq _ _).mp h2.symm

/-- A record whose key matches `k` and whose payload fails the combined
filter chain contributes nothing: deleting that key leaves the
filter-map-filter pipeline over the map values unchanged. -/
theorem pipeline_mdelete {α β : Type} (m : List (Nat × α)) (k : Nat)
    (f1 : α → Bool) (g : α → β) (pr : β → Bool)
    (h : ∀ e ∈ m, e.1 = k → (f1 e.2 && pr (g e.2)) = false) :
    (((mvalues (mdelete m k)).filter f1).map g).filter pr =
      (((mvalues m).filter f1).map g).filter pr := by
  induction m with
  | nil => rfl
  | cons e es ih =>
    have htail : ∀ e' ∈ es, e'.1 = k → (f1 e'.2 && pr (g e'.2)) = false :=
      fun e' he' => h e' (List.mem_cons_of_mem _ he')
    by_cases he : e.1 = k
    · have hf := h e (List.mem_cons_self e es) he
      rw [show mdelete (e :: es) k = mdelete es k by
        simp [mdelete, List.filter_cons, he]]
      rw [ih htail]
      simp only [mvalues, List.map_cons, List.filter_cons]
      by_cases hf1 : f1 e.2
      · have hpr : pr (g e.2) = false := by simpa [hf1] using hf
        simp [hf1, hpr, mvalues]
      · simp [hf1, mvalues]
    · rw [show mdelete (e :: es) k = e :: mdelete es k by
        simp [mdelete, List.filter_cons, he]]
      simp only [mvalues, List.map_cons, List.filter_cons]
      by_cases hf1 : f1 e.2
      · by_cases hpr : pr (g e.2) <;>
          simp [hf1, hpr, mvalues] <;>
          simpa [mvalues] using ih htail
      · simp [hf1, mvalues]
        simpa [mvalues] using ih htail

/-- C6: a pending payment whose due date is exactly the aggregation
instant is counted in neither `upcomingPaymentsTotal` (pending, due
strictly in the future) nor `overduePaymentsTotal` (overdue, or pending
and due strictly in the past): deleting that payment leaves both dashboard
totals unchanged. -/
theorem dashboard_boundary_due_now (s : MemStorage) (lid : Nat) (now today : JDate)
    (p : Payment) (hwf : s.Wf) (hp : mget s.paymentMap p.id = some p)
    (hstat : p.status = "pending") (hdue : p.dueDate.time = now.time) :
    (MemStorage.getDashboardData (MemStorage.deletePayment s p.id).2 lid
        now today).upcomingPaymentsTotal =
      (MemStorage.getDashboardData s lid now today).upcomingPaymentsTotal ∧
    (MemStorage.getDashboardData (MemStorage.deletePayment s p.id).2 lid
        now today).overduePaymentsTotal =
      (MemStorage.getDashboardData s lid now today).overduePaymentsTotal := by
  have hnd : (s.paymentMap.map (fun e => e.1)).Nodup := hwf.2.2.2.2.1.1
  constructor
  · refine congrArg sumAmounts
      (pipeline_mdelete s.paymentMap p.id
        (fun pay => ((MemStorage.getTenantsByLandlord s lid).map
          (fun (t : TenantFull) => t.tenant.id)).contains pay.tenantId)
        (fun pay => ({ payment := pay
                       tenant := (MemStorage.getTenantsByLandlord s lid).find?
                         (fun t => t.tenant.id == pay.tenantId) } : PaymentFull))
        (upcomingPred now) ?_)
    intro e he hek
    have hev : e.2 = p := eq_of_mem_key_nodup hnd hp he hek
    rw [hev]
    have : upcomingPred now
        { payment := p
          tenant := (MemStorage.getTenantsByLandlord s lid).find?
            (fun t => t.tenant.id == p.tenantId) } = false := by
      rw [upcomingPred]
      simp [hstat, hdue]
    rw [this, Bool.and_false]
  · refine congrArg sumAmounts
      (pipeline_mdelete s.paymentMap p.id
        (fun pay => ((MemStorage.getTenantsByLandlord s lid).map
          (fun (t : TenantFull) => t.tenant.id)).contains pay.tenantId)
        (fun pay => ({ payment := pay
                       tenant := (MemStorage.getTenantsByLandlord s lid).find?
                         (fun t => t.tenant.id == pay.tenantId) } : PaymentFull))
        (overduePred now) ?_)
    intro e he hek
    have hev : e.2 = p := eq_of_mem_key_nodup hnd hp he hek
    rw [hev]
    have : overduePred now
        { payment := p
          tenant := (MemStorage.getTenantsByLandlord s lid).find?
            (fun t => t.tenant.id == p.tenantId) } = false := by
      rw [overduePred]
      simp [hstat, hdue]
    rw [this, Bool.and_false]

theorem mget_field_of_mem_values {α : Type} {m : List (Nat × α)} (getId : α → Nat)
    (hnd : (m.map (fun e => e.1)).Nodup) (hid : ∀ e ∈ m, getId e.2 = e.1)
    {v : α} (hv : v ∈ mvalues m) : mget m (getId v) = some v := by
  obtain ⟨e, he, hev⟩ := List.mem_map.mp hv
  have hkey : getId v = e.1 := by rw [← hev]; exact hid e he
  rw [hkey]
  have : (e.1, v) ∈ m := by
    have : e = (e.1, v) := by rw [← hev]
    rw [← this]
    exact he
  exact mget_of_mem_nodup hnd this

theorem field_eq_of_mget {α : Type} {m : List (Nat × α)} (getId : α → Nat)
    (hid : ∀ e ∈ m, getId e.2 = e.1) {k : Nat} {v : α}
    (h : mget m k = some v) : getId v = k :=
  hid (k, v) (mem_of_mget_eq_some h)

theorem mem_values_of_mget {α : Type} {m : List (Nat × α)} {k : Nat} {v : α}
    (h : mget m k = some v) : v ∈ mvalues m :=
  List.mem_map.mpr ⟨(k, v), mem_of_mget_eq_some h, rfl⟩

/-- C4: every payment returned by `getPaymentsByLandlord(landlordId)` has a
`tenantId` that resolves to a tenant whose `unitId` resolves to a unit
whose `propertyId` resolves to a property with exactly the queried
`landlordId` — a payment of another landlord can never appear. -/
theorem getPaymentsByLandlord_scoped (s : MemStorage) (lid : Nat) (hwf : s.Wf) :
    ∀ pf ∈ MemStorage.getPaymentsByLandlord s lid,
      ∃ t u pr, mget s.tenantMap pf.payment.tenantId = some t ∧
        mget s.unitMap t.unitId = some u ∧
        mget s.propertyMap u.propertyId = some pr ∧ pr.landlordId = lid := by
  intro pf hpf
  obtain ⟨pay, hpayf, hpayeq⟩ := List.mem_map.mp hpf
  obtain ⟨hpaym, hpayc⟩ := List.mem_filter.mp hpayf
  have hpfpay : pf.payment = pay := by rw [← hpayeq]
  obtain ⟨tid, htidmem, htideq⟩ := List.mem_map.mp (List.elem_iff.mp hpayc)
  obtain ⟨t0, ht0mem, ht0eq⟩ := List.mem_map.mp htidmem
  obtain ⟨ht0v, ht0c⟩ := List.mem_filter.mp ht0mem
  obtain ⟨u0, hu0mem, hu0eq⟩ := List.mem_map.mp (List.elem_iff.mp ht0c)
  obtain ⟨hu0v, hu0c⟩ := List.mem_filter.mp hu0mem
  obtain ⟨pid, hpidmem, hpideq⟩ := List.mem_map.mp (List.elem_iff.mp hu0c)
  obtain ⟨hpidv, hpidc⟩ := List.mem_filter.mp hpidmem
  refine ⟨t0, u0, pid, ?_, ?_, ?_, by simpa using hpidc⟩
  · have : tid.tenant = t0 := by rw [← ht0eq]; rfl
    rw [hpfpay, ← htideq, this]
    exact mget_field_of_mem_values Tenant.id hwf.2.2.2.1.1 hwf.2.2.2.1.2.1 ht0v
  · rw [← hu0eq]
    exact mget_field_of_mem_values Unit.id hwf.2.2.1.1 hwf.2.2.1.2.1 hu0v
  · rw [← hpideq]
    exact mget_field_of_mem_values Property.id hwf.2.1.1 hwf.2.1.2.1 hpidv

/-- Witness for C4 on a concrete store holding a payment chain. -/
theorem getPaymentsByLandlord_scoped_witness :
    exStateT.Wf ∧
    ∀ pf ∈ MemStorage.getPaymentsByLandlord exStateT 1,
      ∃ t u pr, mget exStateT.tenantMap pf.payment.tenantId = some t ∧
        mget exStateT.unitMap t.unitId = some u ∧
        mget exStateT.propertyMap u.propertyId = some pr ∧ pr.landlordId = 1 :=
  ⟨by decide, getPaymentsByLandlord_scoped exStateT 1 (by decide)⟩

/-- C10: `getTenantsByLandlord` applies no `isActive` filter: every tenant
row whose unit chain resolves to the queried landlord is returned, with no
hypothesis on `isActive`, so inactive (soft-deleted) tenants are included;
and the dashboard `tenantsCount` is the length of that list. -/
theorem getTenantsByLandlord_includes_inactive (s : MemStorage) (lid : Nat)
    (now today : JDate) (hwf : s.Wf) (t : Tenant) (u : Unit) (pr : Property)
    (ht : t ∈ mvalues s.tenantMap) (hu : mget s.unitMap t.unitId = some u)
    (hpr : mget s.propertyMap u.propertyId = some pr) (hlid : pr.landlordId = lid) :
    (∃ tf ∈ MemStorage.getTenantsByLandlord s lid, tf.tenant = t) ∧
    (MemStorage.getDashboardData s lid now today).tenantsCount =
      (MemStorage.getTenantsByLandlord s lid).length := by
  refine ⟨?_, rfl⟩
  have huid : u.id = t.unitId := field_eq_of_mget Unit.id hwf.2.2.1.2.1 hu
  have hprid : pr.id = u.propertyId := field_eq_of_mget Property.id hwf.2.1.2.1 hpr
  have hprmem : pr ∈ MemStorage.getPropertiesByLandlord s lid := by
    rw [MemStorage.getPropertiesByLandlord, List.mem_filter]
    exact ⟨mem_values_of_mget hpr, by simp [hlid]⟩
  have hpidc : ((MemStorage.getPropertiesByLandlord s lid).map
      (fun p => p.id)).contains u.propertyId = true := by
    rw [List.elem_iff]
    exact List.mem_map.mpr ⟨pr, hprmem, hprid⟩
  have humem : u ∈ (mvalues s.unitMap).filter
      (fun u => ((MemStorage.getPropertiesByLandlord s lid).map
        (fun p => p.id)).contains u.propertyId) := by
    rw [List.mem_filter]
    exact ⟨mem_values_of_mget hu, hpidc⟩
  have huidc : (((mvalues s.unitMap).filter
      (fun u => ((MemStorage.getPropertiesByLandlord s lid).map
        (fun p => p.id)).contains u.propertyId)).map
      (fun u => u.id)).contains t.unitId = true := by
    rw [List.elem_iff]
    exact List.mem_map.mpr ⟨u, humem, huid⟩
  refine ⟨MemStorage.enrichTenant s t, ?_, rfl⟩
  rw [MemStorage.getTenantsByLandlord]
  exact List.mem_map.mpr ⟨t, List.mem_filter.mpr ⟨ht, huidc⟩, rfl⟩

/-- Sample store with two payments for tenant 1: one paid last month, one
pending due exactly at `exDate`. -/
def exStateP : MemStorage :=
  let r := (MemStorage.createPayment exStateT { time := 500, year := 2025, month := 8 }
    { tenantId := 1, amount := 1200, dueDate := { time := 900, year := 2025, month := 8 }
      paymentDate := some { time := 905, year := 2025, month := 8 }, status := "paid"
      paymentMethod := some "Credit Card", notes := none }).2
  (MemStorage.createPayment r { time := 600, year := 2025, month := 9 }
    { tenantId := 1, amount := 1100, dueDate := exDate, paymentDate := none
      status := "pending", paymentMethod := none, notes := none }).2

/-- The pending boundary payment stored in `exStateP` (id 2). -/
def exPay2 : Payment :=
  { id := 2, tenantId := 1, amount := 1100, dueDate := exDate, paymentDate := none
    status := "pending", paymentMethod := none, notes := none
    createdAt := { time := 600, year := 2025, month := 9 } }

/-- Witness for C6: in `exStateP`, payment 2 is pending with its due date
exactly at the aggregation instant; deleting it changes neither total. -/
theorem dashboard_boundary_due_now_witness :
    (exStateP.Wf ∧ mget exStateP.paymentMap 2 = some exPay2 ∧
      exPay2.status = "pending" ∧ exPay2.dueDate.time = exDate.time) ∧
    ((MemStorage.getDashboardData (MemStorage.deletePayment exStateP 2).2 1
        exDate exDate).upcomingPaymentsTotal =
      (MemStorage.getDashboardData exStateP 1 exDate exDate).upcomingPaymentsTotal ∧
    (MemStorage.getDashboardData (MemStorage.deletePayment exStateP 2).2 1
        exDate exDate).overduePaymentsTotal =
      (MemStorage.getDashboardData exStateP 1 exDate exDate).overduePaymentsTotal) :=
  ⟨⟨by decide, by decide, rfl, rfl⟩,
    dashboard_boundary_due_now exStateP 1 exDate exDate exPay2 (by decide) (by decide)
      rfl rfl⟩

/-- Sample store where the tenant on unit 1 was created inactive (the unit
still ends up flagged occupied). -/
def exStateBad : MemStorage :=
  (MemStorage.createTenant exState0 exDate { exInsTen with isActive := false }).2

/-- The inactive tenant row stored in `exStateBad`. -/
def exTenInactive : Tenant :=
  { exTen1 with isActive := false }

/-- Property 1 of the sample stores. -/
def exProp : Property :=
  { id := 1, landlordId := 1, name := "P", address := "a", city := "c", state := "s"
    zip := "z", totalUnits := 2, isActive := true, createdAt := exDate }

/-- Witness for C10: the inactive tenant of `exStateBad` is returned by
`getTenantsByLandlord` and counted by the dashboard. -/
theorem getTenantsByLandlord_includes_inactive_witness :
    (exStateBad.Wf ∧ exTenInactive ∈ mvalues exStateBad.tenantMap ∧
      exTenInactive.isActive = false) ∧
    ((∃ tf ∈ MemStorage.getTenantsByLandlord exStateBad 1, tf.tenant = exTenInactive) ∧
      (MemStorage.getDashboardData exStateBad 1 exDate exDate).tenantsCount =
        (MemStorage.getTenantsByLandlord exStateBad 1).length) :=
  ⟨⟨by decide, by decide, rfl⟩,
    getTenantsByLandlord_includes_inactive exStateBad 1 exDate exDate (by decide)
      exTenInactive exUnitOcc exProp (by decide) (by decide) (by decide) rfl⟩

/-- C5: `monthlyIncome` has exactly 6 entries, ordered oldest month to
newest: entry `j` (0-based) is the calendar month `(current month - 5 + j)`
after JS date normalisation, labelled month-name plus quote plus 2-digit
year, and its amount is the sum of the amounts of exactly the landlord
payments with status paid whose `paymentDate` lies in that calendar
month/year; a month with no such payments still yields its entry, whose
sum over the empty filter is 0. -/
theorem monthlyIncome_six_buckets (s : MemStorage) (lid : Nat) (now today : JDate) :
    (MemStorage.getDashboardData s lid now today).monthlyIncome.length = 6 ∧
    (MemStorage.getDashboardData s lid now today).monthlyIncome =
      (List.range 6).map (fun (j : Nat) =>
        { month := monthName (normYM today.year (today.month - 5 + (j : Int))).2 ++ " " ++
            squote ++ (toString (normYM today.year (today.month - 5 + (j : Int))).1).drop 2
          amount := sumAmounts ((MemStorage.getPaymentsByLandlord s lid).filter
            (paidInMonth (normYM today.year (today.month - 5 + (j : Int))).1
              (normYM today.year (today.month - 5 + (j : Int))).2)) : MonthEntry }) := by
  constructor
  · show ((List.range 6).map _).length = 6
    rw [List.length_map, List.length_range]
  · show (List.range 6).map (fun j => monthlyIncomeEntry today
      (MemStorage.getPaymentsByLandlord s lid) (5 - j)) = _
    apply List.map_congr_left
    intro j hj
    have hj5 : j ≤ 5 := Nat.lt_succ_iff.mp (List.mem_range.mp hj)
    have hcast : (today.month : Int) - ((5 - j : Nat) : Int) =
        (today.month : Int) - 5 + (j : Int) := by omega
    simp only [monthlyIncomeEntry, hcast]

/-- Entity classes, matching the keys of the `currentId` counter object. -/
inductive EType
  | user
  | property
  | unit
  | tenant
  | payment
  | notification
  deriving DecidableEq

/-- The counter of `currentId` for an entity class. -/
def CurrentId.get : CurrentId → EType → Nat
  | c, .user => c.user
  | c, .property => c.property
  | c, .unit => c.unit
  | c, .tenant => c.tenant
  | c, .payment => c.payment
  | c, .notification => c.notification

/-- The mutating operations of the storage interface, with their payloads
(the read-only operations do not change the state and cannot issue ids). -/
inductive Op
  | createUser (now : JDate) (d : InsertUser)
  | createProperty (now : JDate) (d : InsertProperty)
  | updateProperty (id : Nat) (d : PartialInsertProperty)
  | deleteProperty (id : Nat)
  | createUnit (now : JDate) (d : InsertUnit)
  | updateUnit (id : Nat) (d : PartialInsertUnit)
  | deleteUnit (id : Nat)
  | createTenant (now : JDate) (d : InsertTenant)
  | updateTenant (id : Nat) (d : PartialInsertTenant)
  | deleteTenant (id : Nat)
  | createPayment (now : JDate) (d : InsertPayment)
  | updatePayment (id : Nat) (d : PartialInsertPayment)
  | deletePayment (id : Nat)
  | createNotification (now : JDate) (d : InsertNotification)
  | updateNotification (id : Nat) (d : PartialInsertNotification)
  | deleteNotification (id : Nat)
  | markNotificationAsRead (id : Nat)

/-- The state after performing one operation. -/
def applyOp (s : MemStorage) : Op → MemStorage
  | .createUser now d => (MemStorage.createUser s now d).2
  | .createProperty now d => (MemStorage.createProperty s now d).2
  | .updateProperty id d => (MemStorage.updateProperty s id d).2
  | .deleteProperty id => (MemStorage.deleteProperty s id).2
  | .createUnit now d => (MemStorage.createUnit s now d).2
  | .updateUnit id d => (MemStorage.updateUnit s id d).2
  | .deleteUnit id => (MemStorage.deleteUnit s id).2
  | .createTenant now d => (MemStorage.createTenant s now d).2
  | .updateTenant id d => (MemStorage.updateTenant s id d).2
  | .deleteTenant id => (MemStorage.deleteTenant s id).2
  | .createPayment now d => (MemStorage.createPayment s now d).2
  | .updatePayment id d => (MemStorage.updatePayment s id d).2
  | .deletePayment id => (MemStorage.deletePayment s id).2
  | .createNotification now d => (MemStorage.createNotification s now d).2
  | .updateNotification id d => (MemStorage.updateNotification s id d).2
  | .deleteNotification id => (MemStorage.deleteNotification s id).2
  | .markNotificationAsRead id => (MemStorage.markNotificationAsRead s id).2

/-- The entity class and id of the record returned by a create operation
run in state `s`; `none` for all other operations. -/
def createdId (s : MemStorage) : Op → Option (EType × Nat)
  | .createUser now d => some (.user, (MemStorage.createUser s now d).1.id)
  | .createProperty now d => some (.property, (MemStorage.createProperty s now d).1.id)
  | .createUnit now d => some (.unit, (MemStorage.createUnit s now d).1.id)
  | .createTenant now d => some (.tenant, (MemStorage.createTenant s now d).1.id)
  | .createPayment now d => some (.payment, (MemStorage.createPayment s now d).1.id)
  | .createNotification now d =>
    some (.notification, (MemStorage.createNotification s now d).1.id)
  | _ => none

/-- Ids returned by the create operations of class `e` along a run of `ops`
starting in `s`, in issue order. -/
def issuedIds (s : MemStorage) : List Op → EType → List Nat
  | [], _ => []
  | op :: ops, e =>
    (match createdId s op with
      | some (e2, i) => if e2 = e then [i] else []
      | none => []) ++ issuedIds (applyOp s op) ops e

theorem updateUnit_currentId (s : MemStorage) (id : Nat) (d : PartialInsertUnit) :
    (MemStorage.updateUnit s id d).2.currentId = s.currentId := by
  unfold MemStorage.updateUnit
  split <;> rfl

theorem updateProperty_currentId (s : MemStorage) (id : Nat) (d : PartialInsertProperty) :
    (MemStorage.updateProperty s id d).2.currentId = s.currentId := by
  unfold MemStorage.updateProperty
  split <;> rfl

theorem updatePayment_currentId (s : MemStorage) (id : Nat) (d : PartialInsertPayment) :
    (MemStorage.updatePayment s id d).2.currentId = s.currentId := by
  unfold MemStorage.updatePayment
  split <;> rfl

theorem updateNotification_currentId (s : MemStorage) (id : Nat)
    (d : PartialInsertNotification) :
    (MemStorage.updateNotification s id d).2.currentId = s.currentId := by
  unfold MemStorage.updateNotification
  split <;> rfl

theorem markNotificationAsRead_currentId (s : MemStorage) (id : Nat) :
    (MemStorage.markNotificationAsRead s id).2.currentId = s.currentId := by
  unfold MemStorage.markNotificationAsRead
  split <;> rfl

theorem updateTenant_currentId (s : MemStorage) (id : Nat) (d : PartialInsertTenant) :
    (MemStorage.updateTenant s id d).2.currentId = s.currentId := by
  unfold MemStorage.updateTenant
  split
  · rfl
  · show (if _ then _ else s).currentId = s.currentId
    split
    · dsimp only
      repeat' split
      all_goals simp [updateUnit_currentId]
    · rfl

theorem deleteTenant_currentId (s : MemStorage) (id : Nat) :
    (MemStorage.deleteTenant s id).2.currentId = s.currentId := by
  unfold MemStorage.deleteTenant
  show (match mget s.tenantMap id with
    | none => s
    | some tenant => _).currentId = s.currentId
  split
  · rfl
  · split
    · rfl
    · dsimp only
      repeat' split
      all_goals simp [updateUnit_currentId]

theorem createTenant_currentId (s : MemStorage) (now : JDate) (d : InsertTenant) :
    (MemStorage.createTenant s now d).2.currentId =
      { s.currentId with tenant := s.currentId.tenant + 1 } := by
  unfold MemStorage.createTenant
  dsimp only
  split <;> simp [updateUnit_currentId]

theorem createTenant_fst_id (s : MemStorage) (now : JDate) (d : InsertTenant) :
    (MemStorage.createTenant s now d).1.id = s.currentId.tenant := by
  unfold MemStorage.createTenant
  dsimp only
  split <;> rfl

theorem applyOp_counter_mono (s : MemStorage) (op : Op) (e : EType) :
    CurrentId.get s.currentId e ≤ CurrentId.get (applyOp s op).currentId e := by
  cases op <;>
    simp [applyOp, CurrentId.get, MemStorage.createUser, MemStorage.createProperty,
      MemStorage.createUnit, MemStorage.createPayment, MemStorage.createNotification,
      MemStorage.deleteProperty, MemStorage.deleteUnit, MemStorage.deletePayment,
      MemStorage.deleteNotification, updateUnit_currentId, updateProperty_currentId,
      updatePayment_currentId, updateNotification_currentId,
      markNotificationAsRead_currentId, updateTenant_currentId, deleteTenant_currentId,
      createTenant_currentId] <;>
    cases e <;> simp [CurrentId.get] <;> omega

/-- A create that issues an id for class `e` issues exactly the current
counter and bumps it by one. -/
theorem head_issued (s : MemStorage) (op : Op) (e : EType) (i : Nat)
    (hi : i ∈ (match createdId s op with
      | some (e2, i2) => if e2 = e then [i2] else []
      | none => ([] : List Nat))) :
    i = CurrentId.get s.currentId e ∧
    CurrentId.get (applyOp s op).currentId e = i + 1 := by
  cases op <;> cases e <;>
    simp_all [createdId, applyOp, CurrentId.get, MemStorage.createUser,
      MemStorage.createProperty, MemStorage.createUnit, MemStorage.createPayment,
      MemStorage.createNotification, createTenant_currentId, createTenant_fst_id]

theorem issuedIds_lower (ops : List Op) :
    ∀ (s : MemStorage) (e : EType) (i : Nat), i ∈ issuedIds s ops e →
      CurrentId.get s.currentId e ≤ i := by
  induction ops with
  | nil =>
    intro s e i hi
    simp [issuedIds] at hi
  | cons op ops ih =>
    intro s e i hi
    rw [issuedIds] at hi
    rcases List.mem_append.mp hi with h1 | h2
    · rw [(head_issued s op e i h1).1]
    · exact le_trans (applyOp_counter_mono s op e) (ih (applyOp s op) e i h2)

theorem issuedIds_pairwise (ops : List Op) :
    ∀ (s : MemStorage) (e : EType), (issuedIds s ops e).Pairwise (· < ·) := by
  induction ops with
  | nil =>
    intro s e
    simp [issuedIds]
  | cons op ops ih =>
    intro s e
    rw [issuedIds]
    rw [List.pairwise_append]
    refine ⟨?_, ih (applyOp s op) e, ?_⟩
    · cases h : createdId s op with
      | none => simp
      | some p =>
        obtain ⟨e2, i2⟩ := p
        by_cases he : e2 = e <;> simp [he]
    · intro a ha b hb
      obtain ⟨hav, hstep⟩ := head_issued s op e a ha
      have hbl := issuedIds_lower ops (applyOp s op) e b hb
      omega

/-- C7: along any sequence of storage operations run from a freshly
constructed store, the ids returned by the create operations of each
entity class are strictly increasing in issue order (hence pairwise
distinct, never reused even across deletes), the per-class counters start
at 1, and every issued id is at least 1. -/
theorem create_ids_strictly_increasing (ops : List Op) (e : EType) :
    (issuedIds initStorage ops e).Pairwise (· < ·) ∧
    (issuedIds initStorage ops e).Nodup ∧
    CurrentId.get initStorage.currentId e = 1 ∧
    (∀ i ∈ issuedIds initStorage ops e, 1 ≤ i) ∧
    ∀ (s : MemStorage) (op : Op),
      CurrentId.get s.currentId e ≤ CurrentId.get (applyOp s op).currentId e := by
  have hpw := issuedIds_pairwise ops initStorage e
  have hinit : CurrentId.get initStorage.currentId e = 1 := by
    cases e <;> rfl
  refine ⟨hpw, List.Pairwise.imp (fun h => Nat.ne_of_lt h) hpw, hinit, ?_,
    fun s op => applyOp_counter_mono s op e⟩
  intro i hi
  have := issuedIds_lower ops initStorage e i hi
  rw [hinit] at this
  exact this

theorem any_mdelete {α : Type} (m : List (Nat × α)) (k : Nat) (p : α → Bool)
    (h : ∀ e ∈ m, e.1 = k → p e.2 = false) :
    (mdelete m k).any (fun e => p e.2) = m.any (fun e => p e.2) := by
  induction m with
  | nil => rfl
  | cons e es ih =>
    have htail := fun e' he' => h e' (List.mem_cons_of_mem _ he')
    by_cases he : e.1 = k
    · rw [show mdelete (e :: es) k = mdelete es k by simp [mdelete, List.filter_cons, he]]
      rw [ih htail, List.any_cons, h e (List.mem_cons_self e es) he]
      simp
    · rw [show mdelete (e :: es) k = e :: mdelete es k by
        simp [mdelete, List.filter_cons, he]]
      rw [List.any_cons, List.any_cons, ih htail]

theorem mem_mset_present {α : Type} {m : List (Nat × α)} {k : Nat} {v : α}
    (hp : m.any (fun e => e.1 == k) = true) {f : Nat × α} :
    f ∈ mset m k v ↔ ∃ e ∈ m, (if e.1 == k then (k, v) else e) = f := by
  rw [mset, if_pos hp]
  exact List.mem_map

theorem mset_absent {α : Type} {m : List (Nat × α)} {k : Nat} (v : α)
    (h : m.any (fun e => e.1 == k) = false) :
    mset m k v = m ++ [(k, v)] := by
  rw [mset, if_neg]
  rw [h]
  exact Bool.false_ne_true

/-- C1, counterexample: from a well-formed state satisfying the occupancy
invariant (unit 1 vacant and unoccupied), creating a tenant with
`isActive = false` on unit 1 flags the unit occupied even though no active
tenant references it, so the invariant does not hold after the create. -/
theorem occ_invariant_counterexample :
    exState0.Wf ∧ OccInv exState0 ∧
    ¬ OccInv (MemStorage.createTenant exState0 exDate
      { exInsTen with isActive := false }).2 :=
  ⟨by decide, by decide, by decide⟩

/-- Helper for C1: deleting any tenant preserves the occupancy invariant
in a well-formed store. -/
theorem occ_inv_deleteTenant (s : MemStorage) (hwf : s.Wf) (hinv : OccInv s)
    (id : Nat) : OccInv (MemStorage.deleteTenant s id).2 := by
  obtain ⟨hwfU, hwfP, hwfUn, hwfT, hwfPay, hwfN⟩ := hwf
  cases hm : mget s.tenantMap id with
  | none =>
    have hst : (MemStorage.deleteTenant s id).2 =
        { s with tenantMap := mdelete s.tenantMap id } := by
      unfold MemStorage.deleteTenant
      rw [hm]
    rw [hst, mdelete_eq_self_of_mget_none hm]
    intro e he
    exact hinv e he
  | some T =>
    cases hu : mget s.unitMap T.unitId with
    | none =>
      have hst : (MemStorage.deleteTenant s id).2 =
          { s with tenantMap := mdelete s.tenantMap id } := by
        unfold MemStorage.deleteTenant
        rw [hm]
        dsimp only [MemStorage.getUnit]
        rw [hu]
      rw [hst]
      intro e he
      show e.2.isOccupied = unitHasActiveTenant (mdelete s.tenantMap id) e.2.id
      have hcond : ∀ f ∈ s.tenantMap, f.1 = id →
          (f.2.unitId == e.2.id && f.2.isActive) = false := by
        intro f hf hfk
        have hfT : f.2 = T := eq_of_mem_key_nodup hwfT.1 hm hf hfk
        have heid : e.2.id = e.1 := hwfUn.2.1 e he
        have hne : T.unitId ≠ e.1 := fun hc =>
          (mget_eq_none_iff s.unitMap T.unitId).mp hu e he hc.symm
        rw [hfT, heid]
        simp [hne]
      rw [unitHasActiveTenant, any_mdelete s.tenantMap id
            (fun t => t.unitId == e.2.id && t.isActive) hcond]
      exact hinv e he
    | some u =>
      have huid : u.id = T.unitId := field_eq_of_mget Unit.id hwfUn.2.1 hu
      have hmu : mget s.unitMap u.id = some u := by rw [huid]; exact hu
      by_cases hfe : (mvalues s.tenantMap).filter
          (fun t => t.id != id && t.unitId == u.id && t.isActive) = []
      · have hst : (MemStorage.deleteTenant s id).2 =
            { s with
              unitMap := mset s.unitMap u.id (mergeUnit u { isOccupied := some false })
              tenantMap := mdelete s.tenantMap id } := by
          unfold MemStorage.deleteTenant MemStorage.updateUnit
          rw [hm]
          dsimp only [MemStorage.getUnit]
          rw [hu]
          dsimp only
          rw [hfe]
          dsimp only [List.isEmpty_nil]
          rw [if_pos rfl, hmu]
        rw [hst]
        intro e' he'
        have hp : s.unitMap.any (fun e => e.1 == u.id) = true := by
          rw [any_key_iff_mget_isSome, hmu]
          rfl
        obtain ⟨e, he, hef⟩ := (mem_mset_present hp).mp he'
        by_cases hek : e.1 = u.id
        · rw [if_pos (by simpa using hek)] at hef
          rw [← hef]
          show (mergeUnit u { isOccupied := some false }).isOccupied =
            unitHasActiveTenant (mdelete s.tenantMap id)
              (mergeUnit u { isOccupied := some false }).id
          have hmerge : (mergeUnit u ({ isOccupied := some false } :
              PartialInsertUnit)).isOccupied = false := rfl
          have hmid : (mergeUnit u ({ isOccupied := some false } :
              PartialInsertUnit)).id = u.id := rfl
          rw [hmerge, hmid]
          refine (List.any_eq_false.mpr ?_).symm
          intro f hfdel
          have hfm : f ∈ s.tenantMap ∧ f.1 ≠ id := by
            have := List.mem_filter.mp hfdel
            exact ⟨this.1, by simpa using this.2⟩
          intro hpred
          have h1 : f.2.unitId = u.id ∧ f.2.isActive = true := by
            simpa using hpred
          have hfid : f.2.id = f.1 := hwfT.2.1 f hfm.1
          have : f.2 ∈ (mvalues s.tenantMap).filter
              (fun t => t.id != id && t.unitId == u.id && t.isActive) := by
            rw [List.mem_filter]
            refine ⟨List.mem_map.mpr ⟨f, hfm.1, rfl⟩, ?_⟩
            simp [hfid, hfm.2, h1.1, h1.2]
          rw [hfe] at this
          simp at this
        · rw [if_neg (by simpa using hek)] at hef
          rw [← hef]
          show e.2.isOccupied = unitHasActiveTenant (mdelete s.tenantMap id) e.2.id
          have hcond : ∀ f ∈ s.tenantMap, f.1 = id →
              (f.2.unitId == e.2.id && f.2.isActive) = false := by
            intro f hf hfk
            have hfT : f.2 = T := eq_of_mem_key_nodup hwfT.1 hm hf hfk
            have heid : e.2.id = e.1 := hwfUn.2.1 e he
            have hne : T.unitId ≠ e.2.id := by
              rw [heid, ← huid]
              exact fun hc => hek hc.symm
            rw [hfT]
            simp [hne]
          rw [unitHasActiveTenant, any_mdelete s.tenantMap id
            (fun t => t.unitId == e.2.id && t.isActive) hcond]
          exact hinv e he
      · have hst : (MemStorage.deleteTenant s id).2 =
            { s with tenantMap := mdelete s.tenantMap id } := by
          unfold MemStorage.deleteTenant
          rw [hm]
          dsimp only [MemStorage.getUnit]
          rw [hu]
          dsimp only
          rw [if_neg (by
            intro hc
            exact hfe (List.isEmpty_iff.mp hc))]
        rw [hst]
        intro e he
        show e.2.isOccupied = unitHasActiveTenant (mdelete s.tenantMap id) e.2.id
        obtain ⟨t2, ht2⟩ := List.exists_mem_of_ne_nil _ hfe
        obtain ⟨ht2v, ht2c⟩ := List.mem_filter.mp ht2
        have ht2' : t2.id ≠ id ∧ t2.unitId = u.id ∧ t2.isActive = true := by
          have h := ht2c
          simp at h
          exact ⟨h.1.1, h.1.2, h.2⟩
        by_cases hek : e.1 = u.id
        · have heu : e.2 = u := eq_of_mem_key_nodup hwfUn.1 hmu he hek
          obtain ⟨f, hf, hft⟩ := List.mem_map.mp ht2v
          have hfid : f.1 = t2.id := by rw [← hft, hwfT.2.1 f hf]
          have hocc : e.2.isOccupied = true := by
            rw [hinv e he]
            apply List.any_eq_true.mpr
            refine ⟨f, hf, ?_⟩
            rw [hft, heu]
            simp [ht2'.2.1, ht2'.2.2, hwfUn.2.1 e he, hek, heu]
          rw [hocc]
          symm
          apply List.any_eq_true.mpr
          refine ⟨f, ?_, ?_⟩
          · rw [mdelete, List.mem_filter]
            refine ⟨hf, ?_⟩
            simp [hfid, ht2'.1]
          · rw [hft, heu]
            simp [ht2'.2.1, ht2'.2.2, hwfUn.2.1 e he, hek, heu]
        · have hcond : ∀ f ∈ s.tenantMap, f.1 = id →
              (f.2.unitId == e.2.id && f.2.isActive) = false := by
            intro f hf hfk
            have hfT : f.2 = T := eq_of_mem_key_nodup hwfT.1 hm hf hfk
            have heid : e.2.id = e.1 := hwfUn.2.1 e he
            have hne : T.unitId ≠ e.2.id := by
              rw [heid, ← huid]
              exact fun hc => hek hc.symm
            rw [hfT]
            simp [hne]
          rw [unitHasActiveTenant, any_mdelete s.tenantMap id
            (fun t => t.unitId == e.2.id && t.isActive) hcond]
          exact hinv e he

/-- Helper for C1: creating an active tenant preserves the occupancy
invariant in a well-formed store. -/
theorem occ_inv_createTenant_active (s : MemStorage) (hwf : s.Wf) (hinv : OccInv s)
    (now : JDate) (d : InsertTenant) (hact : d.isActive = true) :
    OccInv (MemStorage.createTenant s now d).2 := by
  obtain ⟨hwfU, hwfP, hwfUn, hwfT, hwfPay, hwfN⟩ := hwf
  have habs : s.tenantMap.any (fun e => e.1 == s.currentId.tenant) = false := by
    by_contra hc
    rw [Bool.not_eq_false] at hc
    obtain ⟨e, he, hek⟩ := List.any_eq_true.mp hc
    have hlt := hwfT.2.2 e he
    have heq : e.1 = s.currentId.tenant := by simpa using hek
    omega
  have hset : mset s.tenantMap s.currentId.tenant
      ({ id := s.currentId.tenant, userId := d.userId, unitId := d.unitId
         leaseStartDate := d.leaseStartDate, leaseEndDate := d.leaseEndDate
         rentDueDay := d.rentDueDay, isActive := d.isActive, createdAt := now } :
        Tenant) =
      s.tenantMap ++ [(s.currentId.tenant,
        { id := s.currentId.tenant, userId := d.userId, unitId := d.unitId
          leaseStartDate := d.leaseStartDate, leaseEndDate := d.leaseEndDate
          rentDueDay := d.rentDueDay, isActive := d.isActive, createdAt := now })] :=
    mset_absent _ habs
  cases hu : mget s.unitMap d.unitId with
  | none =>
    have hst : (MemStorage.createTenant s now d).2 =
        { s with
          tenantMap := mset s.tenantMap s.currentId.tenant
            { id := s.currentId.tenant, userId := d.userId, unitId := d.unitId
              leaseStartDate := d.leaseStartDate, leaseEndDate := d.leaseEndDate
              rentDueDay := d.rentDueDay, isActive := d.isActive, createdAt := now }
          currentId := { s.currentId with tenant := s.currentId.tenant + 1 } } := by
      unfold MemStorage.createTenant
      dsimp only [MemStorage.getUnit]
      rw [hu]
    rw [hst]
    intro e he
    show e.2.isOccupied = unitHasActiveTenant _ e.2.id
    rw [unitHasActiveTenant, hset, List.any_append]
    have heid : e.2.id = e.1 := hwfUn.2.1 e he
    have hne : d.unitId ≠ e.2.id := by
      rw [heid]
      exact fun hc => (mget_eq_none_iff s.unitMap d.unitId).mp hu e he hc.symm
    have hnew : ([(s.currentId.tenant,
        ({ id := s.currentId.tenant, userId := d.userId, unitId := d.unitId
           leaseStartDate := d.leaseStartDate, leaseEndDate := d.leaseEndDate
           rentDueDay := d.rentDueDay, isActive := d.isActive, createdAt := now } :
          Tenant))]).any (fun f => f.2.unitId == e.2.id && f.2.isActive) = false := by
      simp [hne]
    rw [hnew, Bool.or_false]
    exact hinv e he
  | some u =>
    have huid : u.id = d.unitId := field_eq_of_mget Unit.id hwfUn.2.1 hu
    have hmu : mget s.unitMap u.id = some u := by rw [huid]; exact hu
    have hst : (MemStorage.createTenant s now d).2 =
        { s with
          unitMap := mset s.unitMap u.id (mergeUnit u { isOccupied := some true })
          tenantMap := mset s.tenantMap s.currentId.tenant
            { id := s.currentId.tenant, userId := d.userId, unitId := d.unitId
              leaseStartDate := d.leaseStartDate, leaseEndDate := d.leaseEndDate
              rentDueDay := d.rentDueDay, isActive := d.isActive, createdAt := now }
          currentId := { s.currentId with tenant := s.currentId.tenant + 1 } } := by
      unfold MemStorage.createTenant MemStorage.updateUnit
      dsimp only [MemStorage.getUnit]
      rw [hu]
      dsimp only
      rw [hmu]
    rw [hst]
    intro e' he'
    have hp : s.unitMap.any (fun e => e.1 == u.id) = true := by
      rw [any_key_iff_mget_isSome, hmu]
      rfl
    obtain ⟨e, he, hef⟩ := (mem_mset_present hp).mp he'
    by_cases hek : e.1 = u.id
    · rw [if_pos (by simpa using hek)] at hef
      rw [← hef]
      show (mergeUnit u { isOccupied := some true }).isOccupied =
        unitHasActiveTenant _ (mergeUnit u { isOccupied := some true }).id
      have hmerge : (mergeUnit u ({ isOccupied := some true } :
          PartialInsertUnit)).isOccupied = true := rfl
      have hmid : (mergeUnit u ({ isOccupied := some true } :
          PartialInsertUnit)).id = u.id := rfl
      rw [hmerge, hmid, unitHasActiveTenant, hset, List.any_append]
      have hnew : ([(s.currentId.tenant,
          ({ id := s.currentId.tenant, userId := d.userId, unitId := d.unitId
             leaseStartDate := d.leaseStartDate, leaseEndDate := d.leaseEndDate
             rentDueDay := d.rentDueDay, isActive := d.isActive, createdAt := now } :
            Tenant))]).any (fun f => f.2.unitId == u.id && f.2.isActive) = true := by
        simp [huid.symm, hact]
      rw [hnew, Bool.or_true]
    · rw [if_neg (by simpa using hek)] at hef
      rw [← hef]
      show e.2.isOccupied = unitHasActiveTenant _ e.2.id
      rw [unitHasActiveTenant, hset, List.any_append]
      have heid : e.2.id = e.1 := hwfUn.2.1 e he
      have hne : d.unitId ≠ e.2.id := by
        rw [heid, ← huid]
        exact fun hc => hek hc.symm
      have hnew : ([(s.currentId.tenant,
          ({ id := s.currentId.tenant, userId := d.userId, unitId := d.unitId
             leaseStartDate := d.leaseStartDate, leaseEndDate := d.leaseEndDate
             rentDueDay := d.rentDueDay, isActive := d.isActive, createdAt := now } :
            Tenant))]).any (fun f => f.2.unitId == e.2.id && f.2.isActive) = false := by
        simp [hne]
      rw [hnew, Bool.or_false]
      exact hinv e he

/-- C1 (amended): in a well-formed store satisfying the occupancy
invariant, every tenant delete and every tenant create with
`isActive = true` re-establish the invariant; tenant creates with
`isActive = false` and tenant updates are excluded, as the counterexample
shows they can leave a unit flagged occupied with no active tenant. -/
theorem occ_invariant_delete_and_active_create (s : MemStorage) (hwf : s.Wf)
    (hinv : OccInv s) :
    (∀ id, OccInv (MemStorage.deleteTenant s id).2) ∧
    (∀ now d, d.isActive = true → OccInv (MemStorage.createTenant s now d).2) :=
  ⟨occ_inv_deleteTenant s hwf hinv,
    fun now d hact => occ_inv_createTenant_active s hwf hinv now d hact⟩

/-- Witness for the amended C1 on the sample store. -/
theorem occ_invariant_delete_and_active_create_witness :
    (exState0.Wf ∧ OccInv exState0) ∧
    ((∀ id, OccInv (MemStorage.deleteTenant exState0 id).2) ∧
      (∀ now d, d.isActive = true →
        OccInv (MemStorage.createTenant exState0 now d).2)) :=
  ⟨⟨by decide, by decide⟩,
    occ_invariant_delete_and_active_create exState0 (by decide) (by decide)⟩

end RentalTrust
